import Mathlib

/-!
Verification of the healthcare data-analysis pipeline
(`data_processing.py`, `clinical_analysis.py`).

Tables are modelled as lists of records; numeric columns as `ℚ`;
calendar dates as day numbers (`ℤ`), `Option` marking missing values
(pandas `NaT`/`NaN`); a column that may be absent from the frame is a
`Bool` flag on the table structure (pandas `col in df.columns`).
-/

namespace HealthCare

/-! ## Risk scoring (`clinical_analysis.stratify_risk_score`) -/

/-- One patient row as consumed by `stratify_risk_score`, with the three
default columns `age`, `length_of_stay`, `is_readmission`. -/
structure PatientRow where
  age : ℚ
  length_of_stay : ℚ
  is_readmission : Bool
deriving DecidableEq, Repr

/-- A frame for risk stratification: each flag records whether the
corresponding default column is present in the frame (`col in df.columns`). -/
structure RiskTable where
  hasAge : Bool
  hasLos : Bool
  hasReadmission : Bool
  rows : List PatientRow
deriving DecidableEq, Repr

/-- The inner `categorize_risk` helper of `stratify_risk_score`. -/
def categorize_risk (score : ℚ) : String :=
  if score < 30 then "Low Risk"
  else if score < 60 then "Medium Risk"
  else "High Risk"

/-- The risk score accumulated by `stratify_risk_score`: starts at 0 and adds
`(age / 120) * 30` if the age column is present, `min(los / 30, 1) * 30` if the
length-of-stay column is present, and `is_readmission.astype(int) * 40` if
the readmission column is present. (Note the source applies `np.minimum` to
the length-of-stay term only, not to the age term.) -/
def riskScoreRow (t : RiskTable) (r : PatientRow) : ℚ :=
  (if t.hasAge then r.age / 120 * 30 else 0)
    + (if t.hasLos then min (r.length_of_stay / 30) 1 * 30 else 0)
    + (if t.hasReadmission then (if r.is_readmission then 1 else 0) * 40 else 0)

/-- `stratify_risk_score`: returns a copy of the frame with `risk_score` and
`risk_category` columns appended; each output entry is
(original row, risk_score, risk_category). -/
def stratify_risk_score (t : RiskTable) : List (PatientRow × ℚ × String) :=
  t.rows.map fun r => (r, riskScoreRow t r, categorize_risk (riskScoreRow t r))

/-- Characterisation of `categorize_risk`: the three labels partition ℚ at the
crisp thresholds 30 and 60. -/
theorem categorize_risk_spec (s : ℚ) :
    (categorize_risk s = "Low Risk" ↔ s < 30)
      ∧ (categorize_risk s = "Medium Risk" ↔ 30 ≤ s ∧ s < 60)
      ∧ (categorize_risk s = "High Risk" ↔ 60 ≤ s) := by
  unfold categorize_risk
  split_ifs with h1 h2 <;>
    refine ⟨⟨fun _ => ?_, fun _ => ?_⟩, ⟨fun _ => ?_, fun _ => ?_⟩, ⟨fun _ => ?_, fun _ => ?_⟩⟩ <;>
    simp_all <;> linarith

/-- The spec's worked example row (age 70, los 10, readmitted) appears in the
output of `stratify_risk_score` with score 67.5 and category "High Risk". -/
theorem example_row_mem_stratify :
    ((⟨70, 10, true⟩ : PatientRow), (135 / 2 : ℚ), "High Risk") ∈
      stratify_risk_score ⟨true, true, true, [⟨70, 10, true⟩]⟩ := by
  have h : riskScoreRow ⟨true, true, true, [⟨70, 10, true⟩]⟩ ⟨70, 10, true⟩ = 135 / 2 := by
    simp [riskScoreRow]
    norm_num [min_def]
  simp [stratify_risk_score, h, categorize_risk]
  norm_num

/-- C5: `stratify_risk_score` assigns `risk_category` "Low Risk" iff
`risk_score < 30`, "Medium Risk" iff `30 ≤ risk_score < 60`, and
"High Risk" iff `60 ≤ risk_score`; moreover `categorize_risk` sends
29.999 to Low, 30 to Medium, 59.999 to Medium and 60 to High. -/
theorem C5_risk_category_boundaries :
    (∀ (t : RiskTable) (e : PatientRow × ℚ × String), e ∈ stratify_risk_score t →
      (e.2.2 = "Low Risk" ↔ e.2.1 < 30)
        ∧ (e.2.2 = "Medium Risk" ↔ 30 ≤ e.2.1 ∧ e.2.1 < 60)
        ∧ (e.2.2 = "High Risk" ↔ 60 ≤ e.2.1))
    ∧ categorize_risk (29999 / 1000) = "Low Risk"
    ∧ categorize_risk 30 = "Medium Risk"
    ∧ categorize_risk (59999 / 1000) = "Medium Risk"
    ∧ categorize_risk 60 = "High Risk" := by
  refine ⟨?_, by norm_num [categorize_risk], by norm_num [categorize_risk],
    by norm_num [categorize_risk], by norm_num [categorize_risk]⟩
  intro t e he
  obtain ⟨r, _, rfl⟩ := List.mem_map.mp he
  exact categorize_risk_spec (riskScoreRow t r)

/-- C5 witness: the spec's example row (age 70, los 10, readmitted) is in the
output of `stratify_risk_score` with score 67.5 and category "High Risk". -/
theorem C5_risk_category_boundaries_witness :
    ((((⟨70, 10, true⟩ : PatientRow), (135 / 2 : ℚ), "High Risk") ∈
        stratify_risk_score ⟨true, true, true, [⟨70, 10, true⟩]⟩)
      ∧ ((("High Risk" : String) = "Low Risk" ↔ (135 / 2 : ℚ) < 30)
        ∧ (("High Risk" : String) = "Medium Risk" ↔ (30 : ℚ) ≤ 135 / 2 ∧ (135 / 2 : ℚ) < 60)
        ∧ (("High Risk" : String) = "High Risk" ↔ (60 : ℚ) ≤ 135 / 2))) :=
  ⟨example_row_mem_stratify, C5_risk_category_boundaries.1 ⟨true, true, true, [⟨70, 10, true⟩]⟩
    ((⟨70, 10, true⟩ : PatientRow), (135 / 2 : ℚ), "High Risk") example_row_mem_stratify⟩

/-- C1: with all three default columns present, for a row with age in
[0,120], non-negative length of stay and boolean readmission flag, the
risk score equals `min(age/120,1)*30 + min(los/30,1)*30 + is_readmission*40`
and lies in [0,100]. -/
theorem C1_risk_score_formula (t : RiskTable)
    (ha : t.hasAge = true) (hl : t.hasLos = true) (hr : t.hasReadmission = true)
    (e : PatientRow × ℚ × String) (he : e ∈ stratify_risk_score t)
    (hage0 : 0 ≤ e.1.age) (hage1 : e.1.age ≤ 120) (hlos : 0 ≤ e.1.length_of_stay) :
    e.2.1 = min (e.1.age / 120) 1 * 30 + min (e.1.length_of_stay / 30) 1 * 30
        + (if e.1.is_readmission then 1 else 0) * 40
      ∧ 0 ≤ e.2.1 ∧ e.2.1 ≤ 100 := by
  obtain ⟨r, _, rfl⟩ := List.mem_map.mp he
  simp only at hage0 hage1 hlos ⊢
  have hminAge : min (r.age / 120) 1 = r.age / 120 :=
    min_eq_left ((div_le_one (by norm_num)).mpr hage1)
  have hscore : riskScoreRow t r
      = r.age / 120 * 30 + min (r.length_of_stay / 30) 1 * 30
        + (if r.is_readmission then 1 else 0) * 40 := by
    simp [riskScoreRow, ha, hl, hr]
  have hage_term0 : (0 : ℚ) ≤ r.age / 120 * 30 := by positivity
  have hage_term1 : r.age / 120 * 30 ≤ 30 := by
    have : r.age / 120 ≤ 1 := (div_le_one (by norm_num)).mpr hage1
    linarith
  have hlos_term0 : (0 : ℚ) ≤ min (r.length_of_stay / 30) 1 * 30 := by
    have : (0 : ℚ) ≤ min (r.length_of_stay / 30) 1 :=
      le_min (by positivity) (by norm_num)
    linarith
  have hlos_term1 : min (r.length_of_stay / 30) 1 * 30 ≤ 30 := by
    have : min (r.length_of_stay / 30) 1 ≤ 1 := min_le_right _ _
    linarith
  have hread0 : (0 : ℚ) ≤ (if r.is_readmission then 1 else 0) * 40 := by
    split <;> norm_num
  have hread1 : ((if r.is_readmission then 1 else 0) : ℚ) * 40 ≤ 40 := by
    split <;> norm_num
  refine ⟨by rw [hscore, hminAge], ?_, ?_⟩ <;> rw [hscore] <;> linarith

/-- C1 witness: the spec's example — age 70, los 10, readmitted — scores
exactly 67.5, inside [0,100]. -/
theorem C1_risk_score_formula_witness :
    (135 / 2 : ℚ) = min ((70 : ℚ) / 120) 1 * 30 + min ((10 : ℚ) / 30) 1 * 30
        + (if true then 1 else 0) * 40
      ∧ (0 : ℚ) ≤ 135 / 2 ∧ (135 / 2 : ℚ) ≤ 100 :=
  C1_risk_score_formula ⟨true, true, true, [⟨70, 10, true⟩]⟩ rfl rfl rfl
    ((⟨70, 10, true⟩ : PatientRow), (135 / 2 : ℚ), "High Risk") example_row_mem_stratify
    (by norm_num) (by norm_num) (by norm_num)

/-! ## Rates (`clinical_analysis.calculate_readmission_rate`,
`clinical_analysis.calculate_mortality_rate`) -/

/-- `calculate_readmission_rate`: `df[readmission_col].sum() / len(df) * 100`.
The table is modelled by its readmission-flag column. Caveat: on an empty
table the source computes 0/0, which is `NaN` in numpy, while rational
division makes this 0; every theorem below therefore assumes a non-empty
table, so that the divergence is never relied on. -/
def calculate_readmission_rate (flags : List Bool) : ℚ :=
  ((flags.countP id : ℚ) / flags.length) * 100

/-- A frame as consumed by `calculate_mortality_rate`: the outcome column's
values, plus whether that column is present at all. -/
structure OutcomeTable where
  hasOutcome : Bool
  rows : List String
deriving DecidableEq, Repr

/-- `calculate_mortality_rate`: `None` when the outcome column is absent,
else `(df[outcome_col] == 'deceased').sum() / len(df) * 100`. -/
def calculate_mortality_rate (t : OutcomeTable) : Option ℚ :=
  if t.hasOutcome = false then none
  else some (((t.rows.countP (· == "deceased") : ℚ)) / t.rows.length * 100)

/-- C8: on a non-empty table the readmission rate is the flagged fraction
times 100; with no flagged rows it is 0, and with every row flagged it is
100. (An empty table is out of scope: there the source's 0/0 is `NaN`.) -/
theorem C8_readmission_rate (flags : List Bool) (hlen : 0 < flags.length) :
    calculate_readmission_rate flags = ((flags.countP id : ℚ) / flags.length) * 100
      ∧ (flags.countP id = 0 → calculate_readmission_rate flags = 0)
      ∧ ((∀ b ∈ flags, b = true) → calculate_readmission_rate flags = 100) := by
  refine ⟨rfl, fun h0 => ?_, fun hall => ?_⟩
  · simp [calculate_readmission_rate, h0]
  · have hcount : flags.countP id = flags.length := by
      rw [List.countP_eq_length]
      intro b hb
      simp [hall b hb]
    have hne : (flags.length : ℚ) ≠ 0 := by
      exact_mod_cast Nat.pos_iff_ne_zero.mp hlen
    rw [calculate_readmission_rate, hcount, div_self hne, one_mul]

/-- C8 witness: a two-row all-flagged table yields 100; a two-row unflagged
table yields 0. -/
theorem C8_readmission_rate_witness :
    (calculate_readmission_rate [true, true] = 100)
      ∧ (calculate_readmission_rate [false, false] = 0) :=
  ⟨(C8_readmission_rate [true, true] (by norm_num)).2.2 (by simp),
   (C8_readmission_rate [false, false] (by norm_num)).2.1 (by rfl)⟩

/-- C7: `calculate_mortality_rate` returns `None` (not an error: it is a total
function) when the outcome column is absent; on a non-empty table with the
column it returns the percentage of rows equal to "deceased", which lies in
[0,100]. -/
theorem C7_mortality_rate (t : OutcomeTable) :
    (t.hasOutcome = false → calculate_mortality_rate t = none)
      ∧ (t.hasOutcome = true → 0 < t.rows.length →
          calculate_mortality_rate t
              = some (((t.rows.countP (· == "deceased") : ℚ)) / t.rows.length * 100)
            ∧ ∀ q, calculate_mortality_rate t = some q → 0 ≤ q ∧ q ≤ 100) := by
  refine ⟨fun h => by simp [calculate_mortality_rate, h], fun h hlen => ⟨?_, ?_⟩⟩
  · simp [calculate_mortality_rate, h]
  · intro q hq
    have hlenQ : (0 : ℚ) < t.rows.length := by exact_mod_cast hlen
    have hcount : (t.rows.countP (· == "deceased") : ℚ) ≤ t.rows.length := by
      exact_mod_cast List.countP_le_length _
    have hq' : q = ((t.rows.countP (· == "deceased") : ℚ)) / t.rows.length * 100 := by
      simp [calculate_mortality_rate, h] at hq
      exact hq.symm
    constructor
    · rw [hq']; positivity
    · rw [hq']
      have : ((t.rows.countP (· == "deceased") : ℚ)) / t.rows.length ≤ 1 :=
        (div_le_one hlenQ).mpr hcount
      linarith

/-- C7 witness: a table without the outcome column gives `None`; the table
["deceased", "recovered"] gives 50, inside [0,100]. -/
theorem C7_mortality_rate_witness :
    (calculate_mortality_rate ⟨false, ["recovered"]⟩ = none)
      ∧ calculate_mortality_rate ⟨true, ["deceased", "recovered"]⟩ = some ((1 : ℚ) / 2 * 100)
      ∧ ((0 : ℚ) ≤ 1 / 2 * 100 ∧ (1 : ℚ) / 2 * 100 ≤ 100) :=
  ⟨(C7_mortality_rate ⟨false, ["recovered"]⟩).1 rfl,
   by
    have h := ((C7_mortality_rate ⟨true, ["deceased", "recovered"]⟩).2 rfl (by norm_num)).1
    simpa using h,
   ((C7_mortality_rate ⟨true, ["deceased", "recovered"]⟩).2 rfl (by norm_num)).2 _
     (by
      have h := ((C7_mortality_rate ⟨true, ["deceased", "recovered"]⟩).2 rfl (by norm_num)).1
      simpa using h)⟩

/-! ## Length of stay (`data_processing.calculate_length_of_stay`) -/

/-- A row as consumed by `calculate_length_of_stay`: parsed admission and
discharge dates (day numbers, `none` = `NaT`) and the `length_of_stay`
column the function writes. -/
structure StayRow where
  admission_date : Option ℤ
  discharge_date : Option ℤ
  length_of_stay : Option ℤ
deriving DecidableEq, Repr

/-- The `length_of_stay` value for one row:
`(discharge - admission).dt.days`, then negatives are set to `NaN` and zeros
to 1. A missing date makes the difference `NaT`, hence a missing value. -/
def losValue (r : StayRow) : Option ℤ :=
  match r.discharge_date, r.admission_date with
  | some d, some a =>
      if d - a < 0 then none
      else if d - a = 0 then some 1
      else some (d - a)
  | _, _ => none

/-- `calculate_length_of_stay`: writes the `length_of_stay` column onto the
frame (the source mutates `df` in place and returns it). -/
def calculate_length_of_stay (df : List StayRow) : List StayRow :=
  df.map fun r => { r with length_of_stay := losValue r }

/-- C4: after `calculate_length_of_stay`, a row with both dates parsed has
`length_of_stay` = discharge − admission, except that a negative difference
becomes missing and a zero difference becomes exactly 1; no row has a
negative `length_of_stay`. -/
theorem C4_length_of_stay (df : List StayRow) (r : StayRow)
    (hr : r ∈ calculate_length_of_stay df) :
    (∀ a d, r.admission_date = some a → r.discharge_date = some d →
      (d - a < 0 → r.length_of_stay = none)
        ∧ (d - a = 0 → r.length_of_stay = some 1)
        ∧ (0 < d - a → r.length_of_stay = some (d - a)))
      ∧ (∀ l, r.length_of_stay = some l → 0 ≤ l) := by
  obtain ⟨r₀, _, rfl⟩ := List.mem_map.mp hr
  constructor
  · intro a d hadm hdis
    simp only at hadm hdis
    refine ⟨fun hneg => ?_, fun hzero => ?_, fun hpos => ?_⟩ <;>
      simp only [losValue, hadm, hdis] <;> split_ifs <;> simp_all <;> omega
  · intro l hl
    simp only [losValue] at hl
    rcases hd : r₀.discharge_date with _ | d <;> rcases ha : r₀.admission_date with _ | a <;>
      simp [hd, ha] at hl
    split_ifs at hl <;> simp_all <;> omega

/-- C4 witness: discharge before admission gives a missing stay, same-day
discharge gives stay 1, and a 10-day gap gives stay 10 (all non-negative). -/
theorem C4_length_of_stay_witness :
    (((StayRow.mk (some 5) (some 3) none).length_of_stay = none → True)
      ∧ ((5 : ℤ) - 5 = 0 →
          ({ admission_date := some 5, discharge_date := some 5,
             length_of_stay := losValue ⟨some 5, some 5, none⟩ } : StayRow).length_of_stay
            = some 1)
      ∧ ((0 : ℤ) < 10 - 0 →
          ({ admission_date := some 0, discharge_date := some 10,
             length_of_stay := losValue ⟨some 0, some 10, none⟩ } : StayRow).length_of_stay
            = some (10 - 0))) := by
  refine ⟨fun _ => trivial, ?_, ?_⟩
  · exact ((C4_length_of_stay [⟨some 5, some 5, none⟩] _ (by simp [calculate_length_of_stay])).1
      5 5 rfl rfl).2.1
  · exact ((C4_length_of_stay [⟨some 0, some 10, none⟩] _ (by simp [calculate_length_of_stay])).1
      0 10 rfl rfl).2.2

/-! ## Cleaning (`data_processing.clean_patient_data`) -/

/-- A raw cell in a date column before `pd.to_datetime`: a parseable date
(its day number), an unparseable string, or an empty cell. -/
inductive RawDate
  | valid (day : ℤ)
  | invalid (s : String)
  | missing
deriving DecidableEq, Repr

/-- `pd.to_datetime(col, errors='coerce')` on one cell: unparseable values
become missing (`NaT`); the conversion is total, it never raises. -/
def coerceDate : RawDate → Option ℤ
  | .valid d => some d
  | .invalid _ => none
  | .missing => none

/-- A raw input record for `clean_patient_data`. `payload` stands for the
remaining (untouched) columns, to distinguish duplicate-key rows. -/
structure RawRecord where
  patient_id : Option ℕ
  admission_date : RawDate
  discharge_date : RawDate
  age : Option ℚ
  payload : ℕ
deriving DecidableEq, Repr

/-- A record after date parsing. -/
structure CleanRecord where
  patient_id : Option ℕ
  admission_date : Option ℤ
  discharge_date : Option ℤ
  age : Option ℚ
  payload : ℕ
deriving DecidableEq, Repr

/-- A raw frame for cleaning; `hasAge` records whether the `age` column is
present (`'age' in df_clean.columns`). -/
structure RawTable where
  hasAge : Bool
  rows : List RawRecord
deriving DecidableEq, Repr

/-- The date-conversion loop of `clean_patient_data` applied to one row. -/
def parseRecord (r : RawRecord) : CleanRecord :=
  ⟨r.patient_id, coerceDate r.admission_date, coerceDate r.discharge_date, r.age, r.payload⟩

/-- The `drop_duplicates(subset=['patient_id', 'admission_date'])` key. -/
def dupKey (r : CleanRecord) : Option ℕ × Option ℤ :=
  (r.patient_id, r.admission_date)

/-- `drop_duplicates(..., keep='first')`: keep a row iff its key was not seen
on an earlier row. -/
def dropDupAux (seen : List (Option ℕ × Option ℤ)) :
    List CleanRecord → List CleanRecord
  | [] => []
  | r :: rest =>
      if dupKey r ∈ seen then dropDupAux seen rest
      else r :: dropDupAux (dupKey r :: seen) rest

/-- The `age` filter mask `(df['age'] >= 0) & (df['age'] <= 120)`; a missing
age compares false on both sides, so the row is dropped. -/
def validAge (r : CleanRecord) : Bool :=
  match r.age with
  | some a => decide (0 ≤ a) && decide (a ≤ 120)
  | none => false

/-- `clean_patient_data`: parse the date columns with `errors='coerce'`, drop
duplicate (patient_id, admission_date) pairs keeping the first, drop rows
with missing patient_id or admission_date, and (when the age column exists)
keep only ages in [0,120]. -/
def clean_patient_data (t : RawTable) : List CleanRecord :=
  let parsed := t.rows.map parseRecord
  let deduped := dropDupAux [] parsed
  let nonnull := deduped.filter fun r => r.patient_id.isSome && r.admission_date.isSome
  if t.hasAge then nonnull.filter validAge else nonnull

/-- Rows surviving `dropDupAux` have unseen keys and are each the first row
of the processed list bearing their key. -/
theorem dropDupAux_find (seen : List (Option ℕ × Option ℤ)) (l : List CleanRecord)
    (r : CleanRecord) (hr : r ∈ dropDupAux seen l) :
    dupKey r ∉ seen ∧ l.find? (fun x => decide (dupKey x = dupKey r)) = some r := by
  induction l generalizing seen with
  | nil => simp [dropDupAux] at hr
  | cons x rest ih =>
    by_cases hx : dupKey x ∈ seen
    · rw [dropDupAux, if_pos hx] at hr
      obtain ⟨hnot, hfind⟩ := ih seen hr
      have hne : dupKey x ≠ dupKey r := fun h => hnot (h ▸ hx)
      refine ⟨hnot, ?_⟩
      rw [List.find?_cons_of_neg _ (by simpa using hne), hfind]
    · rw [dropDupAux, if_neg hx] at hr
      rcases List.mem_cons.mp hr with rfl | hr'
      · exact ⟨hx, by rw [List.find?_cons_of_pos _ (by simp)]⟩
      · obtain ⟨hnot, hfind⟩ := ih _ hr'
        have hxr : dupKey x ≠ dupKey r := fun h => hnot (by simp [h])
        have hseen : dupKey r ∉ seen := fun h => hnot (by simp [h])
        refine ⟨hseen, ?_⟩
        rw [List.find?_cons_of_neg _ (by simpa using hxr), hfind]

/-- `dropDupAux` output has pairwise-distinct keys. -/
theorem dropDupAux_pairwise (seen : List (Option ℕ × Option ℤ))
    (l : List CleanRecord) :
    (dropDupAux seen l).Pairwise (fun a b => dupKey a ≠ dupKey b) := by
  induction l generalizing seen with
  | nil => simp [dropDupAux]
  | cons x rest ih =>
    by_cases hx : dupKey x ∈ seen
    · rw [dropDupAux, if_pos hx]; exact ih seen
    · rw [dropDupAux, if_neg hx]
      refine List.Pairwise.cons (fun b hb => ?_) (ih _)
      have := (dropDupAux_find _ _ _ hb).1
      exact fun h => this (by simp [h])

/-- C3: every cleaned row has patient_id and admission_date populated; keys
are pairwise distinct and each surviving row is the first parsed row bearing
its key; with an age column present every cleaned row has age in [0,120];
and unparseable date cells coerce to missing rather than raising. -/
theorem C3_clean_patient_data (t : RawTable) (r : CleanRecord)
    (hr : r ∈ clean_patient_data t) :
    (r.patient_id.isSome ∧ r.admission_date.isSome)
      ∧ (clean_patient_data t).Pairwise (fun a b => dupKey a ≠ dupKey b)
      ∧ (t.rows.map parseRecord).find? (fun x => decide (dupKey x = dupKey r)) = some r
      ∧ (t.hasAge = true → ∃ a, r.age = some a ∧ 0 ≤ a ∧ a ≤ 120)
      ∧ (∀ s, coerceDate (RawDate.invalid s) = none) := by
  have hsub1 : ∀ x : CleanRecord,
      x ∈ clean_patient_data t → x ∈ dropDupAux [] (t.rows.map parseRecord) := by
    intro x hx
    unfold clean_patient_data at hx
    split_ifs at hx with hage
    · exact List.mem_of_mem_filter (List.mem_of_mem_filter hx)
    · exact List.mem_of_mem_filter hx
  have hpw : (clean_patient_data t).Pairwise (fun a b => dupKey a ≠ dupKey b) := by
    unfold clean_patient_data
    split_ifs with hage
    · exact ((dropDupAux_pairwise [] _).sublist
        ((List.filter_sublist _).trans (List.filter_sublist _)))
    · exact (dropDupAux_pairwise [] _).sublist (List.filter_sublist _)
  have hnn : r.patient_id.isSome ∧ r.admission_date.isSome := by
    unfold clean_patient_data at hr
    split_ifs at hr with hage
    · have := List.of_mem_filter (List.mem_of_mem_filter hr)
      simpa using this
    · have := List.of_mem_filter hr
      simpa using this
  refine ⟨hnn, hpw, (dropDupAux_find [] _ _ (hsub1 r hr)).2, fun hage => ?_, fun s => rfl⟩
  unfold clean_patient_data at hr
  rw [if_pos hage] at hr
  have hva := List.of_mem_filter hr
  unfold validAge at hva
  rcases ha : r.age with _ | a
  · rw [ha] at hva; simp at hva
  · rw [ha] at hva
    simp only [Bool.and_eq_true, decide_eq_true_eq] at hva
    exact ⟨a, rfl, hva.1, hva.2⟩

/-- C3 witness: a four-row raw table (a valid row, its exact duplicate key
with different payload, a row with unparseable admission date, and an
out-of-range age) cleans to just the first row. -/
theorem C3_clean_patient_data_witness :
    (⟨some 1, some 100, some 105, some 40, 0⟩ : CleanRecord) ∈
        clean_patient_data
          ⟨true, [⟨some 1, .valid 100, .valid 105, some 40, 0⟩,
                  ⟨some 1, .valid 100, .valid 106, some 41, 1⟩,
                  ⟨some 2, .invalid "notadate", .valid 107, some 30, 2⟩,
                  ⟨some 3, .valid 101, .valid 108, some 130, 3⟩]⟩
      ∧ ((⟨some 1, some 100, some 105, some 40, 0⟩ : CleanRecord).patient_id.isSome
          ∧ (⟨some 1, some 100, some 105, some 40, 0⟩ : CleanRecord).admission_date.isSome)
      ∧ (true = true → ∃ a, (⟨some 1, some 100, some 105, some 40, 0⟩ :
          CleanRecord).age = some a ∧ 0 ≤ a ∧ a ≤ 120) := by
  have hmem : (⟨some 1, some 100, some 105, some 40, 0⟩ : CleanRecord) ∈
      clean_patient_data
        ⟨true, [⟨some 1, .valid 100, .valid 105, some 40, 0⟩,
                ⟨some 1, .valid 100, .valid 106, some 41, 1⟩,
                ⟨some 2, .invalid "notadate", .valid 107, some 30, 2⟩,
                ⟨some 3, .valid 101, .valid 108, some 130, 3⟩]⟩ := by
    norm_num [clean_patient_data, dropDupAux, parseRecord, coerceDate, dupKey, validAge]
  have h := C3_clean_patient_data _ _ hmem
  exact ⟨hmem, h.1, h.2.2.2.1⟩

/-! ## Readmission flag (`data_processing.identify_readmissions`) -/

/-- One encounter row as consumed by `identify_readmissions` (after
cleaning, so `patient_id` and `admission_date` are populated; the discharge
date may still be missing). -/
structure Encounter where
  patient_id : ℕ
  admission_date : ℤ
  discharge_date : Option ℤ
deriving DecidableEq, Repr

/-- The `sort_values([patient_id_col, admission_col])` comparison:
ascending lexicographic on (patient_id, admission_date). -/
def encLE (a b : Encounter) : Bool :=
  decide (a.patient_id < b.patient_id)
    || (decide (a.patient_id = b.patient_id) && decide (a.admission_date ≤ b.admission_date))

/-- `df.sort_values([patient_id_col, admission_col])`. -/
def sortEncounters (df : List Encounter) : List Encounter :=
  df.mergeSort encLE

/-- `groupby(patient_id).shift(1)` applied to the discharge column at one
position: the discharge date of the most recent strictly-earlier row of the
sorted frame with the same patient id (`none` when there is no such row). -/
def prevDischarge (pre : List Encounter) (pid : ℕ) : Option (Option ℤ) :=
  (pre.reverse.find? fun p => decide (p.patient_id = pid)).map (·.discharge_date)

/-- The flag for one row:
`(days_since_discharge <= days) & (days_since_discharge > 0)`, with
`fillna(False)` — a missing previous discharge (first encounter of the
patient, or prior row with `NaT` discharge) gives `false`. -/
def readmFlag (days : ℤ) (pre : List Encounter) (e : Encounter) : Bool :=
  match prevDischarge pre e.patient_id with
  | some (some d) => decide (0 < e.admission_date - d ∧ e.admission_date - d ≤ days)
  | _ => false

/-- Row-by-row flagging over the sorted frame, carrying the already-processed
prefix. -/
def flagLoop (days : ℤ) (pre : List Encounter) : List Encounter → List (Encounter × Bool)
  | [] => []
  | e :: rest => (e, readmFlag days pre e) :: flagLoop days (pre ++ [e]) rest

/-- `identify_readmissions` (default window `days = 30`): sort, compute the
gap from the previous same-patient discharge, flag `0 < gap ≤ days`,
`fillna(False)`. -/
def identify_readmissions (days : ℤ) (df : List Encounter) : List (Encounter × Bool) :=
  flagLoop days [] (sortEncounters df)

theorem flagLoop_length (days : ℤ) (pre l : List Encounter) :
    (flagLoop days pre l).length = l.length := by
  induction l generalizing pre with
  | nil => rfl
  | cons e rest ih => simp [flagLoop, ih]

theorem flagLoop_get (days : ℤ) (pre l : List Encounter) (i : ℕ) (h : i < l.length) :
    (flagLoop days pre l).get ⟨i, by rw [flagLoop_length]; exact h⟩
      = (l.get ⟨i, h⟩, readmFlag days (pre ++ l.take i) (l.get ⟨i, h⟩)) := by
  induction l generalizing pre i with
  | nil => exact absurd h (by simp)
  | cons e rest ih =>
    cases i with
    | zero => simp [flagLoop]
    | succ n =>
      have hn : n < rest.length := by simpa using h
      have := ih (pre ++ [e]) n hn
      simpa [flagLoop, List.append_assoc] using this

theorem flagLoop_map_fst (days : ℤ) (pre l : List Encounter) :
    (flagLoop days pre l).map Prod.fst = l := by
  induction l generalizing pre with
  | nil => rfl
  | cons e rest ih => simp [flagLoop, ih]

theorem encLE_trans (a b c : Encounter) (hab : encLE a b = true) (hbc : encLE b c = true) :
    encLE a c = true := by
  simp only [encLE, Bool.or_eq_true, Bool.and_eq_true, decide_eq_true_eq] at *
  omega

theorem encLE_total (a b : Encounter) : (encLE a b || encLE b a) = true := by
  simp only [encLE, Bool.or_eq_true, Bool.and_eq_true, decide_eq_true_eq]
  omega

/-- C2: `identify_readmissions` returns the frame sorted ascending by
(patient_id, admission_date) — a permutation of the input — with a total
(never missing) boolean flag per row that is true iff the gap in days from
the same patient's immediately preceding discharge satisfies
`0 < gap ≤ days`; in particular a row with no earlier same-patient row in
the sorted order (the patient's earliest encounter) is flagged false. -/
theorem C2_identify_readmissions (days : ℤ) (df : List Encounter) :
    ((identify_readmissions days df).map Prod.fst = sortEncounters df
        ∧ (sortEncounters df).Perm df
        ∧ (sortEncounters df).Pairwise fun a b =>
            a.patient_id < b.patient_id
              ∨ (a.patient_id = b.patient_id ∧ a.admission_date ≤ b.admission_date))
      ∧ (∀ i (h : i < (identify_readmissions days df).length) (e : Encounter) (b : Bool),
          (identify_readmissions days df).get ⟨i, h⟩ = (e, b) →
          (b = true ↔
              (∃ d, prevDischarge ((sortEncounters df).take i) e.patient_id = some (some d)
                ∧ 0 < e.admission_date - d ∧ e.admission_date - d ≤ days))
            ∧ ((∀ p ∈ (sortEncounters df).take i, p.patient_id ≠ e.patient_id) →
                b = false)) := by
  have hperm : (sortEncounters df).Perm df := List.mergeSort_perm df encLE
  have hsorted : (sortEncounters df).Pairwise fun a b => encLE a b = true :=
    List.sorted_mergeSort encLE_trans encLE_total df
  refine ⟨⟨flagLoop_map_fst days [] (sortEncounters df), hperm, ?_⟩, ?_⟩
  · refine hsorted.imp ?_
    intro a b hab
    simp only [encLE, Bool.or_eq_true, Bool.and_eq_true, decide_eq_true_eq] at hab
    tauto
  · intro i h e b heb
    have hi : i < (sortEncounters df).length := by
      rw [identify_readmissions, flagLoop_length] at h
      exact h
    have hget := flagLoop_get days [] (sortEncounters df) i hi
    have heb' : ((sortEncounters df).get ⟨i, hi⟩,
        readmFlag days ([] ++ (sortEncounters df).take i) ((sortEncounters df).get ⟨i, hi⟩))
          = (e, b) := by
      rw [← hget]
      exact heb
    rw [Prod.mk.injEq] at heb'
    obtain ⟨he, hb⟩ := heb'
    subst he hb
    rw [List.nil_append]
    constructor
    · unfold readmFlag
      rcases hp : prevDischarge ((sortEncounters df).take i)
          ((sortEncounters df).get ⟨i, hi⟩).patient_id with _ | (_ | d)
      · simp [hp]
      · simp [hp]
      · simp [hp, decide_eq_true_iff]
    · intro hnone
      have hfind : ((sortEncounters df).take i).reverse.find?
          (fun p => decide (p.patient_id = ((sortEncounters df).get ⟨i, hi⟩).patient_id))
            = none := by
        rw [List.find?_eq_none]
        intro p hp
        simp only [decide_eq_true_eq]
        exact hnone p (List.mem_reverse.mp hp)
      unfold readmFlag prevDischarge
      rw [hfind]
      rfl

/-- C2 witness: the spec's example — patient 1 discharged on day 10,
readmitted on day 15 (gap 5, flagged) and again on day 100 (gap 80 from the
day-20 discharge, not flagged); the first encounter is never flagged. -/
theorem C2_identify_readmissions_witness :
    identify_readmissions 30
        [⟨1, 0, some 10⟩, ⟨1, 15, some 20⟩, ⟨1, 100, some 105⟩]
      = [(⟨1, 0, some 10⟩, false), (⟨1, 15, some 20⟩, true), (⟨1, 100, some 105⟩, false)]
    ∧ (sortEncounters [⟨1, 0, some 10⟩, ⟨1, 15, some 20⟩, ⟨1, 100, some 105⟩]).Perm
        [⟨1, 0, some 10⟩, ⟨1, 15, some 20⟩, ⟨1, 100, some 105⟩] := by
  have hs : sortEncounters [⟨1, 0, some 10⟩, ⟨1, 15, some 20⟩, ⟨1, 100, some 105⟩]
      = [⟨1, 0, some 10⟩, ⟨1, 15, some 20⟩, ⟨1, 100, some 105⟩] :=
    List.mergeSort_of_sorted (by simp [encLE])
  constructor
  · rw [identify_readmissions, hs]
    norm_num [flagLoop, readmFlag, prevDischarge]
  · exact (C2_identify_readmissions 30
      [⟨1, 0, some 10⟩, ⟨1, 15, some 20⟩, ⟨1, 100, some 105⟩]).1.2.1

/-! ## High-cost cohort (`clinical_analysis.identify_high_cost_patients`) -/

/-- A row as consumed by `identify_high_cost_patients`: the cost column and
the untouched remainder of the row. -/
structure CostRow where
  total_cost : ℚ
  payload : ℕ
deriving DecidableEq, Repr

/-- A frame for cohort selection; `hasCost` records whether the cost column
is present. -/
structure CostTable where
  hasCost : Bool
  rows : List CostRow
deriving DecidableEq, Repr

/-- `Series.quantile(q)` with the default linear interpolation: with the
values sorted ascending and `h = (n-1)*q`, returns
`x_⌊h⌋ + (h-⌊h⌋)·(x_{⌊h⌋+1} − x_⌊h⌋)`. -/
def quantileLinear (xs : List ℚ) (q : ℚ) : ℚ :=
  let s := xs.mergeSort fun a b => decide (a ≤ b)
  if s.length = 0 then 0
  else
    let h : ℚ := ((s.length - 1 : ℕ) : ℚ) * q
    let i : ℕ := (⌊h⌋).toNat
    s.getD i 0 + (h - ⌊h⌋) * (s.getD (min (i + 1) (s.length - 1)) 0 - s.getD i 0)

/-- `identify_high_cost_patients`: `None` when the cost column is absent,
else the rows with cost at or above the `percentile/100` quantile, each
tagged with `cost_category = 'High Cost'`. -/
def identify_high_cost_patients (t : CostTable) (percentile : ℚ) :
    Option (List (CostRow × String)) :=
  if t.hasCost = false then none
  else
    let cost_threshold := quantileLinear (t.rows.map (·.total_cost)) (percentile / 100)
    some ((t.rows.filter fun r => decide (cost_threshold ≤ r.total_cost)).map
      fun r => (r, "High Cost"))

/-- The 0-quantile of a list is its smallest element (head of the ascending
sort). -/
theorem quantileLinear_zero (xs : List ℚ) :
    quantileLinear xs 0 = (xs.mergeSort fun a b => decide (a ≤ b)).getD 0 0 := by
  unfold quantileLinear
  dsimp only
  split_ifs with h0
  · rw [List.length_eq_zero] at h0
    rw [h0]
    rfl
  · simp

/-- The head of a list sorted ascending bounds every member from below. -/
theorem sorted_getD_zero_le (s : List ℚ)
    (hs : s.Pairwise fun a b => (decide (a ≤ b)) = true)
    (x : ℚ) (hx : x ∈ s) : s.getD 0 0 ≤ x := by
  cases s with
  | nil => simp at hx
  | cons a rest =>
    rcases List.mem_cons.mp hx with rfl | hx'
    · simp
    · have := List.rel_of_pairwise_cons hs hx'
      simpa using this

/-- C6: with the cost column present, `identify_high_cost_patients` keeps
exactly the rows whose cost is ≥ the percentile threshold (boundary
inclusive); at percentile 0 it returns the full table; without the cost
column it returns `None` (totally, no exception). -/
theorem C6_high_cost_patients (t : CostTable) (p : ℚ) :
    (t.hasCost = false → identify_high_cost_patients t p = none)
      ∧ (t.hasCost = true → ∀ r : CostRow,
          ((r, "High Cost") ∈ (identify_high_cost_patients t p).getD []
            ↔ r ∈ t.rows
              ∧ quantileLinear (t.rows.map (·.total_cost)) (p / 100) ≤ r.total_cost))
      ∧ (t.hasCost = true → p = 0 →
          identify_high_cost_patients t p = some (t.rows.map fun r => (r, "High Cost"))) := by
  refine ⟨fun h => by simp [identify_high_cost_patients, h], fun h r => ?_, fun h hp => ?_⟩
  · simp only [identify_high_cost_patients, h]
    simp only [Bool.true_eq_false, if_false, Option.getD_some, List.mem_map, List.mem_filter]
    constructor
    · rintro ⟨x, ⟨hx, hcost⟩, hxr⟩
      obtain ⟨rfl, -⟩ := Prod.mk.injEq .. ▸ hxr
      exact ⟨hx, by simpa using hcost⟩
    · rintro ⟨hr, hcost⟩
      exact ⟨r, ⟨hr, by simpa using hcost⟩, rfl⟩
  · subst hp
    simp only [identify_high_cost_patients, h, Bool.true_eq_false, if_false,
      Option.some_inj, zero_div]
    have hfilter : (t.rows.filter fun r =>
        decide (quantileLinear (t.rows.map (·.total_cost)) 0 ≤ r.total_cost)) = t.rows := by
      rw [List.filter_eq_self]
      intro r hr
      rw [decide_eq_true_iff, quantileLinear_zero]
      have hsorted : ((t.rows.map (·.total_cost)).mergeSort
          fun a b : ℚ => decide (a ≤ b)).Pairwise
            fun a b : ℚ => (decide (a ≤ b)) = true :=
        List.sorted_mergeSort
          (fun a b c hab hbc => by
            simp only [decide_eq_true_eq] at *; exact le_trans hab hbc)
          (fun a b => by simp [le_total]) (t.rows.map (·.total_cost))
      refine sorted_getD_zero_le _ hsorted _ ?_
      exact ((t.rows.map (·.total_cost)).mergeSort_perm _).mem_iff.mpr
        (List.mem_map_of_mem _ hr)
    rw [hfilter]

/-- C6 witness: on a concrete two-row table, percentile 0 returns the full
table; with the cost column absent the result is `None`. -/
theorem C6_high_cost_patients_witness :
    identify_high_cost_patients ⟨true, [⟨10, 0⟩, ⟨20, 1⟩]⟩ 0
        = some [(⟨10, 0⟩, "High Cost"), (⟨20, 1⟩, "High Cost")]
      ∧ identify_high_cost_patients ⟨false, [⟨10, 0⟩, ⟨20, 1⟩]⟩ 90 = none :=
  ⟨(C6_high_cost_patients ⟨true, [⟨10, 0⟩, ⟨20, 1⟩]⟩ 0).2.2 rfl rfl,
   (C6_high_cost_patients ⟨false, [⟨10, 0⟩, ⟨20, 1⟩]⟩ 90).1 rfl⟩

/-! ## Anonymization (`data_processing.anonymize_patient_data`) -/

/-- A row as consumed by `anonymize_patient_data`: the patient id, the rest
of the row, and the `anonymized_id` column the function writes. -/
structure IdRow where
  patient_id : ℕ
  payload : ℕ
  anonymized_id : Option String
deriving DecidableEq, Repr

/-- `Series.unique()`: the distinct values in first-occurrence order. -/
def uniqueAux (seen : List ℕ) : List ℕ → List ℕ
  | [] => []
  | x :: rest => if x ∈ seen then uniqueAux seen rest else x :: uniqueAux (x :: seen) rest

/-- `df[patient_id_col].unique()`. -/
def uniqueIds (df : List IdRow) : List ℕ :=
  uniqueAux [] (df.map (·.patient_id))

/-- The decimal digits of `n`, most significant first, as characters. -/
def digitChars (n : ℕ) : List Char :=
  (Nat.digits 10 n).reverse.map fun d => Char.ofNat (48 + d)

/-- Left-pad with '0' to width `w` (the `06` in `f'PAT_{i:06d}'`). -/
def zeroPad (w : ℕ) (cs : List Char) : List Char :=
  List.replicate (w - cs.length) '0' ++ cs

/-- The anonymized label `f'PAT_{i:06d}'`. -/
def patLabel (i : ℕ) : String :=
  String.mk ('P' :: 'A' :: 'T' :: '_' :: zeroPad 6 (digitChars i))

/-- `anonymize_patient_data`: writes onto the frame an `anonymized_id`
column mapping each patient id to `patLabel` of its 1-based position in the
first-occurrence list of distinct ids. -/
def anonymize_patient_data (df : List IdRow) : List IdRow :=
  df.map fun r =>
    { r with anonymized_id := some (patLabel ((uniqueIds df).indexOf r.patient_id + 1)) }

/-- Decimal decoding of a character list (inverse of rendering). -/
def decChars (cs : List Char) : ℕ :=
  cs.foldl (fun n c => 10 * n + (c.toNat - 48)) 0

theorem decChars_replicate_zero (k : ℕ) (cs : List Char) :
    decChars (List.replicate k '0' ++ cs) = decChars cs := by
  induction k with
  | zero => rfl
  | succ m ih => simpa [decChars, List.replicate_succ] using ih

theorem foldr_digits_ofDigits (L : List ℕ) (hL : ∀ d ∈ L, d < 10) :
    L.foldr (fun d acc => 10 * acc + ((Char.ofNat (48 + d)).toNat - 48)) 0
      = Nat.ofDigits 10 L := by
  induction L with
  | nil => rfl
  | cons d L ih =>
    have hd : d < 10 := hL d (List.mem_cons_self d L)
    have hchar : (Char.ofNat (48 + d)).toNat = 48 + d := by
      interval_cases d <;> decide
    have hrest := ih fun x hx => hL x (List.mem_cons_of_mem d hx)
    rw [List.foldr_cons, hrest, Nat.ofDigits_cons, hchar]
    omega

theorem decChars_digitChars (n : ℕ) : decChars (digitChars n) = n := by
  unfold decChars digitChars
  rw [List.foldl_map, List.foldl_reverse]
  have := foldr_digits_ofDigits (Nat.digits 10 n)
    (fun d hd => Nat.digits_lt_base (by norm_num) hd)
  calc (Nat.digits 10 n).foldr (fun y x => 10 * x + ((Char.ofNat (48 + y)).toNat - 48)) 0
      = Nat.ofDigits 10 (Nat.digits 10 n) := this
    _ = n := Nat.ofDigits_digits 10 n

/-- The label map `i ↦ 'PAT_%06d' % i` is injective. -/
theorem patLabel_injective : Function.Injective patLabel := by
  intro i j h
  have hdata : ('P' :: 'A' :: 'T' :: '_' :: zeroPad 6 (digitChars i))
      = ('P' :: 'A' :: 'T' :: '_' :: zeroPad 6 (digitChars j)) := by
    simpa [patLabel] using congrArg String.data h
  have hpad : zeroPad 6 (digitChars i) = zeroPad 6 (digitChars j) := by
    simpa using hdata
  have hdec := congrArg decChars hpad
  rwa [zeroPad, zeroPad, decChars_replicate_zero, decChars_replicate_zero,
    decChars_digitChars, decChars_digitChars] at hdec

/-- Values of the source list survive into `uniqueAux` unless already seen. -/
theorem mem_uniqueAux (seen : List ℕ) (l : List ℕ) (x : ℕ) (hx : x ∈ l) :
    x ∈ uniqueAux seen l ∨ x ∈ seen := by
  induction l generalizing seen with
  | nil => simp at hx
  | cons y rest ih =>
    by_cases hy : y ∈ seen
    · rw [uniqueAux, if_pos hy]
      rcases List.mem_cons.mp hx with rfl | hx'
      · exact Or.inr hy
      · exact ih seen hx'
    · rw [uniqueAux, if_neg hy]
      rcases List.mem_cons.mp hx with rfl | hx'
      · exact Or.inl (List.mem_cons_self x _)
      · rcases ih (y :: seen) hx' with h | h
        · exact Or.inl (List.mem_cons_of_mem y h)
        · rcases List.mem_cons.mp h with rfl | h'
          · exact Or.inl (List.mem_cons_self x _)
          · exact Or.inr h'

/-- Every patient id of the frame occurs in `uniqueIds`. -/
theorem patient_id_mem_uniqueIds (df : List IdRow) (r : IdRow) (hr : r ∈ df) :
    r.patient_id ∈ uniqueIds df := by
  have := mem_uniqueAux [] (df.map (·.patient_id)) r.patient_id
    (List.mem_map_of_mem _ hr)
  simpa [uniqueIds] using this

/-- C10: `anonymize_patient_data` keeps the original `patient_id` (and all
other columns) unchanged on every row, assigns
`anonymized_id = PAT_(index in first-occurrence distinct ids, from 1)`, and
two output rows carry the same `anonymized_id` iff they carry the same
`patient_id`. -/
theorem C10_anonymize_patient_data (df : List IdRow) :
    ((anonymize_patient_data df).map (fun r => (r.patient_id, r.payload))
        = df.map fun r => (r.patient_id, r.payload))
      ∧ (∀ r ∈ anonymize_patient_data df,
          r.anonymized_id = some (patLabel ((uniqueIds df).indexOf r.patient_id + 1)))
      ∧ (∀ r1 ∈ anonymize_patient_data df, ∀ r2 ∈ anonymize_patient_data df,
          (r1.anonymized_id = r2.anonymized_id ↔ r1.patient_id = r2.patient_id)) := by
  refine ⟨by simp [anonymize_patient_data, List.map_map], ?_, ?_⟩
  · intro r hr
    obtain ⟨r₀, _, rfl⟩ := List.mem_map.mp hr
    rfl
  · intro r1 hr1 r2 hr2
    obtain ⟨a, ha, rfl⟩ := List.mem_map.mp hr1
    obtain ⟨b, hb, rfl⟩ := List.mem_map.mp hr2
    simp only [Option.some.injEq]
    constructor
    · intro h
      have hidx : (uniqueIds df).indexOf a.patient_id = (uniqueIds df).indexOf b.patient_id := by
        have := patLabel_injective h
        omega
      have hma : a.patient_id ∈ uniqueIds df := patient_id_mem_uniqueIds df a ha
      have hmb : b.patient_id ∈ uniqueIds df := patient_id_mem_uniqueIds df b hb
      have hlta : (uniqueIds df).indexOf a.patient_id < (uniqueIds df).length :=
        List.indexOf_lt_length.mpr hma
      have hltb : (uniqueIds df).indexOf b.patient_id < (uniqueIds df).length :=
        List.indexOf_lt_length.mpr hmb
      have hga := List.indexOf_get (a := a.patient_id) (l := uniqueIds df) hlta
      have hgb := List.indexOf_get (a := b.patient_id) (l := uniqueIds df) hltb
      rw [← hga, ← hgb]
      congr 1
      exact Fin.ext hidx
    · intro h
      rw [h]

/-- C10 witness: in a frame with patient ids 7, 7, 9, the first two rows get
the same anonymized id (same patient) and the first and third do not (the
iff reduces their label equality to `7 = 9`). -/
theorem C10_anonymize_patient_data_witness :
    ((⟨7, 0, some (patLabel ((uniqueIds
            [⟨7, 0, none⟩, ⟨7, 1, none⟩, ⟨9, 2, none⟩]).indexOf 7 + 1))⟩ : IdRow).anonymized_id
        = (⟨7, 1, some (patLabel ((uniqueIds
            [⟨7, 0, none⟩, ⟨7, 1, none⟩, ⟨9, 2, none⟩]).indexOf 7 + 1))⟩ : IdRow).anonymized_id
      ↔ (7 : ℕ) = 7)
    ∧ ((⟨7, 0, some (patLabel ((uniqueIds
            [⟨7, 0, none⟩, ⟨7, 1, none⟩, ⟨9, 2, none⟩]).indexOf 7 + 1))⟩ : IdRow).anonymized_id
        = (⟨9, 2, some (patLabel ((uniqueIds
            [⟨7, 0, none⟩, ⟨7, 1, none⟩, ⟨9, 2, none⟩]).indexOf 9 + 1))⟩ : IdRow).anonymized_id
      ↔ (7 : ℕ) = 9) :=
  ⟨(C10_anonymize_patient_data [⟨7, 0, none⟩, ⟨7, 1, none⟩, ⟨9, 2, none⟩]).2.2
      _ (List.mem_map_of_mem _ (show (⟨7, 0, none⟩ : IdRow) ∈ _ from List.mem_cons_self _ _))
      _ (List.mem_map_of_mem _
        (show (⟨7, 1, none⟩ : IdRow) ∈ _ from
          List.mem_cons_of_mem _ (List.mem_cons_self _ _))),
   (C10_anonymize_patient_data [⟨7, 0, none⟩, ⟨7, 1, none⟩, ⟨9, 2, none⟩]).2.2
      _ (List.mem_map_of_mem _ (show (⟨7, 0, none⟩ : IdRow) ∈ _ from List.mem_cons_self _ _))
      _ (List.mem_map_of_mem _
        (show (⟨9, 2, none⟩ : IdRow) ∈ _ from
          List.mem_cons_of_mem _ (List.mem_cons_of_mem _ (List.mem_cons_self _ _))))⟩

/-! ## Argument mutation (frame effects of each function)

Each `…_call` wrapper records both the returned value and the state the
caller's table object is left in after the call (`argAfter`). Functions
that first take `df.copy()` (or build a new frame, as `sort_values` and
`groupby` do) leave the argument unchanged; functions that assign a column
directly on `df` leave the argument equal to the returned frame. -/

/-- Result and final state of the passed-in table of one call. -/
structure Call (α β : Type) where
  ret : β
  argAfter : α

/-- A row as consumed by `calculate_patient_age`: the birth date and the
`age` column the function writes. -/
structure BirthRow where
  birth_date : Option ℤ
  age : Option ℤ
deriving DecidableEq, Repr

/-- `calculate_patient_age`:
`df['age'] = (reference_date - df[birth_date_col]).dt.days // 365`
(floor division; missing birth date gives missing age). -/
def calculate_patient_age (reference_date : ℤ) (df : List BirthRow) : List BirthRow :=
  df.map fun r => { r with age := r.birth_date.map fun b => Int.fdiv (reference_date - b) 365 }

/-- A row as consumed by `categorize_age_groups`: the age and the
`age_group` column the function writes. -/
structure AgeRow where
  age : ℚ
  age_group : Option String
deriving DecidableEq, Repr

/-- `pd.cut(df[age_col], bins=[0,18,35,50,65,80,120], right=False)` on one
value: six left-closed right-open bins; values outside [0,120) get `NaN`. -/
def ageGroupLabel (a : ℚ) : Option String :=
  if a < 0 then none
  else if a < 18 then some "0-17"
  else if a < 35 then some "18-34"
  else if a < 50 then some "35-49"
  else if a < 65 then some "50-64"
  else if a < 80 then some "65-79"
  else if a < 120 then some "80+"
  else none

/-- `categorize_age_groups`: writes the `age_group` column onto the frame
(no copy is taken). -/
def categorize_age_groups (df : List AgeRow) : List AgeRow :=
  df.map fun r => { r with age_group := ageGroupLabel r.age }

/-- `clean_patient_data` starts with `df.copy()`: the argument is unchanged. -/
def clean_patient_data_call (t : RawTable) : Call RawTable (List CleanRecord) :=
  ⟨clean_patient_data t, t⟩

/-- `identify_readmissions` works on the new frame built by `sort_values`:
the argument is unchanged. -/
def identify_readmissions_call (days : ℤ) (df : List Encounter) :
    Call (List Encounter) (List (Encounter × Bool)) :=
  ⟨identify_readmissions days df, df⟩

/-- `stratify_risk_score` starts with `df.copy()`: the argument is
unchanged. -/
def stratify_risk_score_call (t : RiskTable) :
    Call RiskTable (List (PatientRow × ℚ × String)) :=
  ⟨stratify_risk_score t, t⟩

/-- `calculate_readmission_rate` computes a scalar, writing nothing. -/
def calculate_readmission_rate_call (flags : List Bool) : Call (List Bool) ℚ :=
  ⟨calculate_readmission_rate flags, flags⟩

/-- `calculate_mortality_rate` computes a scalar, writing nothing. -/
def calculate_mortality_rate_call (t : OutcomeTable) : Call OutcomeTable (Option ℚ) :=
  ⟨calculate_mortality_rate t, t⟩

/-- `identify_high_cost_patients` assigns `cost_category` on a `.copy()`:
the argument is unchanged. -/
def identify_high_cost_patients_call (t : CostTable) (percentile : ℚ) :
    Call CostTable (Option (List (CostRow × String))) :=
  ⟨identify_high_cost_patients t percentile, t⟩

/-- `calculate_patient_age` assigns `df['age']` directly on the argument:
after the call the caller's table is the returned frame. -/
def calculate_patient_age_call (reference_date : ℤ) (df : List BirthRow) :
    Call (List BirthRow) (List BirthRow) :=
  ⟨calculate_patient_age reference_date df, calculate_patient_age reference_date df⟩

/-- `calculate_length_of_stay` assigns `df['length_of_stay']` directly on
the argument: after the call the caller's table is the returned frame. -/
def calculate_length_of_stay_call (df : List StayRow) :
    Call (List StayRow) (List StayRow) :=
  ⟨calculate_length_of_stay df, calculate_length_of_stay df⟩

/-- `categorize_age_groups` assigns `df['age_group']` directly on the
argument (no copy): after the call the caller's table is the returned
frame. -/
def categorize_age_groups_call (df : List AgeRow) : Call (List AgeRow) (List AgeRow) :=
  ⟨categorize_age_groups df, categorize_age_groups df⟩

/-- `anonymize_patient_data` assigns `df['anonymized_id']` directly on the
argument (no copy): after the call the caller's table is the returned
frame. -/
def anonymize_patient_data_call (df : List IdRow) : Call (List IdRow) (List IdRow) :=
  ⟨anonymize_patient_data df, anonymize_patient_data df⟩

/-- C9 counterexample: `categorize_age_groups` and `anonymize_patient_data`
are not among the claim's two exceptions, yet both leave the caller's table
changed (an `age_group` / `anonymized_id` column appears on the argument
itself). -/
theorem C9_mutation_counterexample :
    (categorize_age_groups_call [⟨20, none⟩]).argAfter ≠ [(⟨20, none⟩ : AgeRow)]
      ∧ (anonymize_patient_data_call [⟨7, 0, none⟩]).argAfter ≠ [(⟨7, 0, none⟩ : IdRow)] := by
  constructor
  · intro h
    norm_num [categorize_age_groups_call, categorize_age_groups, ageGroupLabel] at h
    exact Option.noConfusion h
  · intro h
    simp [anonymize_patient_data_call, anonymize_patient_data] at h

/-- C9 (amended): every modelled function leaves its table argument
unchanged except `calculate_patient_age`, `calculate_length_of_stay`,
`categorize_age_groups` and `anonymize_patient_data`, which mutate the
passed-in table in place (the caller's table ends up equal to the returned
frame). -/
theorem C9_argument_effects :
    (∀ t : RawTable, (clean_patient_data_call t).argAfter = t)
      ∧ (∀ (days : ℤ) (df : List Encounter), (identify_readmissions_call days df).argAfter = df)
      ∧ (∀ t : RiskTable, (stratify_risk_score_call t).argAfter = t)
      ∧ (∀ flags : List Bool, (calculate_readmission_rate_call flags).argAfter = flags)
      ∧ (∀ t : OutcomeTable, (calculate_mortality_rate_call t).argAfter = t)
      ∧ (∀ (t : CostTable) (p : ℚ), (identify_high_cost_patients_call t p).argAfter = t)
      ∧ (∀ (rd : ℤ) (df : List BirthRow),
          (calculate_patient_age_call rd df).argAfter = calculate_patient_age rd df)
      ∧ (∀ df : List StayRow,
          (calculate_length_of_stay_call df).argAfter = calculate_length_of_stay df)
      ∧ (∀ df : List AgeRow,
          (categorize_age_groups_call df).argAfter = categorize_age_groups df)
      ∧ (∀ df : List IdRow,
          (anonymize_patient_data_call df).argAfter = anonymize_patient_data df) :=
  ⟨fun _ => rfl, fun _ _ => rfl, fun _ => rfl, fun _ => rfl, fun _ => rfl,
   fun _ _ => rfl, fun _ _ => rfl, fun _ => rfl, fun _ => rfl, fun _ => rfl⟩

end HealthCare
